import Mathlib

/-!
Shallow embedding of `src/wgd/modeling.py` (Ks-distribution mixture modeling).

Conventions of the embedding:

* Python/numpy floats are modelled by `ℚ`.  NaN or missing cells are modelled
  with `Option ℚ` (`none` standing for a missing value), so
  `pandas.DataFrame.dropna` becomes a `filterMap` keeping the rows in which
  both modelled cells are present.
* External library calls that return opaque fitted objects
  (`sklearn.mixture.BayesianGaussianMixture(...).fit`,
  `sklearn.mixture.GaussianMixture(...).fit`, the `.aic`/`.bic` methods,
  `np.log`, the `GridSearchCV` per-bandwidth scorer) are modelled as function
  parameters: the wrapper code in `modeling.py` treats them as black boxes,
  and so does the embedding.  Every hyperparameter the wrapper passes to them
  is an explicit argument of the abstract fitter.
* Python exceptions are modelled with `Except String`: a function that can
  raise returns `.error msg` exactly on the inputs on which the Python code
  raises.
* The ambient state of the `random` module (consumed by `random.sample` on
  line 179) is modelled as an explicit argument: a stream of naturals driving
  the successive picks of the sampler.  The Python function has no seed
  parameter, so this stream is process-global state, not an argument of
  `kernel_density_estimation` in the source.
* Plotting (matplotlib) never affects any returned value and is omitted.
-/

namespace Wgd

attribute [local semireducible] Rat.mul Rat.inv Rat.add Rat.sub

/-- Conversion `int(x)` of Python applied to a float: truncation toward zero
(floor for nonnegative arguments, ceiling for negative ones). -/
def pyInt (q : ℚ) : ℤ := if 0 ≤ q then q.floor else q.ceil

deriving instance DecidableEq for Except

/-- One row of the input data frame.  Only the two columns read by
`modeling.py` are modelled: `Ks` and `WeightOutliersIncluded`. -/
structure Row where
  ks : Option ℚ
  weight : Option ℚ
  deriving DecidableEq

/-- Effect of `data_frame.dropna()` (line 31): keep the rows in which both
modelled cells are present, in order, as (Ks, weight) pairs. -/
def dropna (rows : List Row) : List (ℚ × ℚ) :=
  rows.filterMap fun r =>
    match r.ks, r.weight with
    | some k, some w => some (k, w)
    | _, _ => none

/-- Python builtin `min` over a list, with junk value 0 on the empty list
(on which the Python builtin raises; callers guard that case). -/
def listMinD : List ℚ → ℚ
  | [] => 0
  | x :: xs => xs.foldl min x

/-- Value of `min(data_frame['WeightOutliersIncluded'])` (line 36): the
minimum of the weight column. -/
def minWeight (ps : List (ℚ × ℚ)) : ℚ := listMinD (ps.map Prod.snd)

/-- Replication loop of lines 37–41: for each row, in order, append its Ks
value `int(weight / m)` times. -/
def resampleList (ps : List (ℚ × ℚ)) (m : ℚ) : List ℚ :=
  ps.flatMap fun q => List.replicate (pyInt (q.2 / m)).toNat q.1

/-- Embedding of `weighted_to_unweighted` (lines 21–41): drop NaN-containing
rows (the dropped count is only logged), let `m` be the minimum remaining
weight, and replicate each Ks value `int(weight / m)` times in row order.
The Python code raises on an empty frame (`min` of an empty sequence is a
`ValueError`) and when `m = 0` (the numpy quotient is `inf` or `nan` and
`int()` of either raises on the first loop iteration); these are the two
`.error` branches. -/
def weighted_to_unweighted (rows : List Row) : Except String (List ℚ) :=
  match dropna rows with
  | [] => .error "ValueError: min arg is an empty sequence"
  | p :: ps =>
    if minWeight (p :: ps) = 0 then
      .error "OverflowError: cannot convert float infinity to integer"
    else
      .ok (resampleList (p :: ps) (minWeight (p :: ps)))

/-- Ks-range truncation shared by `mixture_model_bgmm` (lines 217–218) and
`mixture_model_gmm` (lines 334–335): `X = X[X < Ks_range[1]]` followed by
`X = X[X > Ks_range[0]]`. -/
def truncate_Ks (lo hi : ℚ) (X : List ℚ) : List ℚ :=
  (X.filter fun v => decide (v < hi)).filter fun v => decide (lo < v)

/-- Lines 219–220 and 337–338: the optional log transform, applied after the
truncation.  `np.log` is the abstract elementwise map `ln`. -/
def fit_input (ln : ℚ → ℚ) (lo hi : ℚ) (log : Bool) (X : List ℚ) : List ℚ :=
  if log then (truncate_Ks lo hi X).map ln else truncate_Ks lo hi X

/-- A fitted sklearn mixture model, as read back by the wrapper code:
component count and the `weights_`, `means_`, `covariances_` arrays (the
data is one-dimensional, so each covariance is a scalar variance). -/
structure MixtureModel where
  n_components : ℕ
  weights : List ℚ
  means : List ℚ
  covariances : List ℚ
  deriving DecidableEq, Inhabited

/-- Default `gamma` hyperparameter of both bgmm entry points (0.01). -/
def default_gamma : ℚ := 1 / 100

/-- Default `max_iter` of both bgmm entry points (1000). -/
def default_max_iter : ℕ := 1000

/-- Default `Ks_range` of all three mixture entry points: (0.1, 2). -/
def default_Ks_range : ℚ × ℚ := (1 / 10, 2)

/-- Embedding of `mixture_model_bgmm` (lines 197–312).  `fitB` abstracts
`sklearn.mixture.BayesianGaussianMixture(n_components=n,
covariance_type='full', weight_concentration_prior=gamma, max_iter=max_iter,
weight_concentration_prior_type='dirichlet_distribution', **kwargs).fit(X)`,
receiving the hyperparameters the wrapper passes together with the prepared
data.  The fit loop runs over `range(n_range[0], n_range[1]+1)`, an
inclusive range of component counts.  All fitted models are returned; the
plotting branch does not affect the returned value. -/
def mixture_model_bgmm (fitB : ℕ → ℚ → ℕ → List ℚ → MixtureModel)
    (ln : ℚ → ℚ) (rows : List Row) (nlo nhi : ℕ) (lo hi : ℚ)
    (gamma : ℚ) (max_iter : ℕ) (log : Bool) :
    Except String (List MixtureModel) := do
  let X0 ← weighted_to_unweighted rows
  let X := fit_input ln lo hi log X0
  return (List.range' nlo (nhi + 1 - nlo)).map fun n => fitB n gamma max_iter X

/-- Embedding of the legacy `mixture_model_bgmm_` (lines 44–107): same fit
loop but over the exclusive Python range `range(n_range[0], n_range[1])`,
and with no log option. -/
def mixture_model_bgmm_ (fitB : ℕ → ℚ → ℕ → List ℚ → MixtureModel)
    (rows : List Row) (nlo nhi : ℕ) (lo hi : ℚ) (gamma : ℚ) (max_iter : ℕ) :
    Except String (List MixtureModel) := do
  let X0 ← weighted_to_unweighted rows
  let X := truncate_Ks lo hi X0
  return (List.range' nlo (nhi - nlo)).map fun n => fitB n gamma max_iter X

/-- Index computed by `np.argmin`: the first index of the minimum entry.
Junk value on the empty list (numpy raises there; the caller guards it). -/
def np_argmin (l : List ℚ) : ℕ := l.findIdx fun y => decide (y = listMinD l)

/-- Fit loop of `mixture_model_gmm`, lines 341–347: one model per component
count in `np.arange(1, n + 1)`, each fitted with the `max_iter=100` literal
the wrapper passes.  `fitG` abstracts
`sklearn.mixture.GaussianMixture(n_components=k, covariance_type='full',
max_iter=100, **kwargs).fit(X)` and receives the component count, the
`max_iter` value and the prepared data. -/
def gmm_models (fitG : ℕ → ℕ → List ℚ → MixtureModel) (X : List ℚ) (n : ℕ) :
    List MixtureModel :=
  (List.range' 1 n).map fun k => fitG k 100 X

/-- Criterion-score list of lines 350–353: AIC scores when the metric string
is AIC, BIC scores for every other metric string. -/
def gmm_IC (aic bic : MixtureModel → List ℚ → ℚ) (metric : String)
    (models : List MixtureModel) (X : List ℚ) : List ℚ :=
  if metric = "AIC" then models.map fun m => aic m X
  else models.map fun m => bic m X

/-- Embedding of `mixture_model_gmm` (lines 315–438): resample, truncate and
optionally log-transform the data, fit one plain Gaussian mixture per
component count in [1, n], score every model with the chosen information
criterion (`aic` and `bic` abstract the fitted models `.aic(X)` / `.bic(X)`
methods), then select `models[np.argmin(IC)]` and return all three results.
`np.argmin` raises on an empty score list (the case `n = 0`), modelled by
the `.error` branch; otherwise the selected index is in range and `getD`
returns the actual list entry. -/
def mixture_model_gmm (fitG : ℕ → ℕ → List ℚ → MixtureModel)
    (aic bic : MixtureModel → List ℚ → ℚ) (ln : ℚ → ℚ) (rows : List Row)
    (n : ℕ) (metric : String) (lo hi : ℚ) (log : Bool) :
    Except String (List MixtureModel × List ℚ × MixtureModel) := do
  let X0 ← weighted_to_unweighted rows
  let X := fit_input ln lo hi log X0
  let models := gmm_models fitG X n
  let IC := gmm_IC aic bic metric models X
  if IC = [] then
    .error "ValueError: attempt to get argmin of an empty sequence"
  else
    .ok (models, IC, models.getD (np_argmin IC) default)

/-- Modelled from the spec: the NumericDegeneracy condition on a fitted
model — component weights failing to sum to 1 within the tolerance 1e-6
stated in the spec, or some variance non-positive.  No corresponding check,
flag or exception exists anywhere in `modeling.py`; this predicate exists
only to state that fact. -/
def NumericDegenerate (m : MixtureModel) : Prop :=
  ¬ |m.weights.sum - 1| ≤ 1 / 1000000 ∨ ∃ v ∈ m.covariances, v ≤ 0

instance (m : MixtureModel) : Decidable (NumericDegenerate m) :=
  inferInstanceAs (Decidable (¬ |m.weights.sum - 1| ≤ 1 / 1000000 ∨ ∃ v ∈ m.covariances, v ≤ 0))

/-- Filter of lines 125–126 defining the full KDE evaluation domain:
`X_full = X[X > 0.1]` followed by `X_full = X_full[X_full <= 5]`. -/
def kde_full_domain (X : List ℚ) : List ℚ :=
  (X.filter fun v => decide (1 / 10 < v)).filter fun v => decide (v ≤ 5)

/-- Modelled from the Python standard library contract of `random.sample`:
sampling without replacement of `k` elements, driven by the ambient global
generator state abstracted as a stream `g` of naturals consumed left to
right, each entry choosing an index into the remaining population. -/
def sampleAux : List ℕ → List ℚ → ℕ → List ℚ
  | _, _, 0 => []
  | g, pop, Nat.succ k =>
    if pop.length = 0 then []
    else
      pop.getD (g.headD 0 % pop.length) 0 ::
        sampleAux g.tail (pop.eraseIdx (g.headD 0 % pop.length)) k

/-- Modelled from the Python standard library contract of `random.sample`:
raises `ValueError` when the requested size exceeds the population size,
otherwise draws the state-dependent sample. -/
def random_sample (g : List ℕ) (pop : List ℚ) (k : ℕ) : Except String (List ℚ) :=
  if pop.length < k then
    .error "ValueError: sample larger than population or is negative"
  else
    .ok (sampleAux g pop k)

/-- Default bandwidth candidates of `kernel_density_estimation`. -/
def default_bandwidths : List ℚ := [1 / 100, 1 / 20, 1 / 10, 3 / 20, 1 / 5]

/-- Embedding of the bandwidth cross-validation result of
`kernel_density_estimation` (lines 110–194): resample the data frame, filter
to the full evaluation domain `0.1 < v <= 5`, draw a 2000-element subsample
with `random.sample` (line 179, global generator state `g`), and score each
candidate bandwidth by 4-fold cross-validation on that subsample (`cv`
abstracts the `GridSearchCV` mean test score of one bandwidth).  The
per-bandwidth KDE fits and the peak detection feed only the plots and are
omitted; the source function has no seed parameter, so `g` is ambient
process state rather than an argument of the Python function. -/
def kernel_density_estimation (g : List ℕ) (cv : List ℚ → ℚ → ℚ)
    (rows : List Row) (bandwidths : List ℚ) : Except String (List ℚ) := do
  let X ← weighted_to_unweighted rows
  let X_grid ← random_sample g (kde_full_domain X) 2000
  return bandwidths.map fun b => cv X_grid b

/-- Fixture: the two-row example distribution of the spec scenario,
values 1.0 and 2.0 with weights 2 and 1. -/
def exampleRows : List Row := [⟨some 1, some 2⟩, ⟨some 2, some 1⟩]

/-- Fixture: a two-row distribution with uniform weights. -/
def uniformRows : List Row := [⟨some 3, some 2⟩, ⟨some 4, some 2⟩]

/-- Fixture: a one-row distribution, resampling to the single value 1. -/
def oneRow : List Row := [⟨some 1, some 1⟩]

/-- Fixture: a distribution resampling to 2001 copies of 1 followed by one 2,
so that its full KDE domain holds 2002 values. -/
def bigRows : List Row := [⟨some 1, some 2001⟩, ⟨some 2, some 1⟩]

/-- Fixture: the resampled value list of `bigRows`. -/
def bigX : List ℚ := List.replicate 2001 1 ++ [2]

/-- Fixture: a degenerate fitted model — weights summing to 0.6 and a
negative variance. -/
def badModel : MixtureModel := ⟨1, [3/10, 3/10], [0, 0], [-1, -1]⟩

/-- Fixture: a single row whose Ks cell is NaN, so that dropna empties it. -/
def nanRows : List Row := [⟨none, some 1⟩]

/-- Fixture: rows whose minimum weight is zero. -/
def zeroWRows : List Row := [⟨some 1, some 0⟩, ⟨some 2, some 1⟩]

/-- Fixture: an abstract fitter recording only the component count. -/
def fitFix : ℕ → ℕ → List ℚ → MixtureModel := fun k _ _ => ⟨k, [], [], []⟩

/-- Fixture: an abstract Bayesian fitter recording only the component count. -/
def fitFixB : ℕ → ℚ → ℕ → List ℚ → MixtureModel := fun k _ _ _ => ⟨k, [], [], []⟩

/-- Fixture: an abstract AIC scorer realizing the spec scenario scores
120.5, 98.2 and 110.0 for the models with 1, 2 and 3 components. -/
def aicFix : MixtureModel → List ℚ → ℚ := fun m _ =>
  if m.n_components = 1 then 241/2 else if m.n_components = 2 then 491/5 else 110

/-- Fixture: an abstract BIC scorer, constantly 9. -/
def bicFix : MixtureModel → List ℚ → ℚ := fun _ _ => 9

/-- Fixture: an abstract fitter that always produces the degenerate model. -/
def fitBadFix : ℕ → ℕ → List ℚ → MixtureModel := fun _ _ _ => badModel

/-- Fixture: an abstract scorer, constantly 0. -/
def zeroScore : MixtureModel → List ℚ → ℚ := fun _ _ => 0

/-- Fixture: a cross-validation scorer reading the head of the subsample. -/
def cvHead : List ℚ → ℚ → ℚ := fun xs _ => xs.headD 0

/-- Fixture: a cross-validation scorer that is constantly 0. -/
def zeroKdeScore : List ℚ → ℚ → ℚ := fun _ _ => 0

/-! Helper lemmas: floors, list minima, argmin, and the resampler. -/

lemma floor_eq_intFloor (q : ℚ) : q.floor = ⌊q⌋ :=
  (Rat.floor_def' q).trans Rat.floor_def.symm

lemma pyInt_of_nonneg {q : ℚ} (h : 0 ≤ q) : pyInt q = ⌊q⌋ := by
  rw [pyInt, if_pos h, floor_eq_intFloor]

lemma foldl_min_le_init (xs : List ℚ) (a : ℚ) : xs.foldl min a ≤ a := by
  induction xs generalizing a with
  | nil => simp
  | cons x xs ih =>
    rw [List.foldl_cons]
    exact le_trans (ih (min a x)) (min_le_left a x)

lemma foldl_min_le_mem : ∀ (xs : List ℚ) (a b : ℚ), b ∈ xs → xs.foldl min a ≤ b := by
  intro xs
  induction xs with
  | nil => intro a b hb; cases hb
  | cons x xs ih =>
    intro a b hb
    rw [List.foldl_cons]
    rcases List.mem_cons.mp hb with rfl | h
    · exact le_trans (foldl_min_le_init xs (min a b)) (min_le_right a b)
    · exact ih (min a x) b h

lemma foldl_min_choice : ∀ (xs : List ℚ) (a : ℚ), xs.foldl min a = a ∨ xs.foldl min a ∈ xs := by
  intro xs
  induction xs with
  | nil => intro a; left; rfl
  | cons x xs ih =>
    intro a
    rw [List.foldl_cons]
    rcases ih (min a x) with h | h
    · rcases min_choice a x with h2 | h2
      · left; rw [h, h2]
      · right; rw [h, h2]; exact List.mem_cons_self x xs
    · right; exact List.mem_cons_of_mem x h

lemma listMinD_le {l : List ℚ} {b : ℚ} (hb : b ∈ l) : listMinD l ≤ b := by
  cases l with
  | nil => cases hb
  | cons x xs =>
    rcases List.mem_cons.mp hb with rfl | h
    · exact foldl_min_le_init xs b
    · exact foldl_min_le_mem xs x b h

lemma listMinD_mem {l : List ℚ} (h : l ≠ []) : listMinD l ∈ l := by
  cases l with
  | nil => exact absurd rfl h
  | cons x xs =>
    rcases foldl_min_choice xs x with h2 | h2
    · rw [listMinD, h2]; exact List.mem_cons_self x xs
    · exact List.mem_cons_of_mem x h2

lemma minWeight_le {ps : List (ℚ × ℚ)} {q : ℚ × ℚ} (hq : q ∈ ps) : minWeight ps ≤ q.2 :=
  listMinD_le (List.mem_map_of_mem Prod.snd hq)

lemma weighted_to_unweighted_ok {rows : List Row} (h : dropna rows ≠ [])
    (hm : minWeight (dropna rows) ≠ 0) :
    weighted_to_unweighted rows
      = .ok (resampleList (dropna rows) (minWeight (dropna rows))) := by
  unfold weighted_to_unweighted
  split
  · next heq => exact absurd heq h
  · next p ps heq =>
    rw [heq] at hm ⊢
    rw [if_neg hm]

lemma flatMap_congr {α β : Type} {l : List α} {f g : α → List β}
    (h : ∀ a ∈ l, f a = g a) : l.flatMap f = l.flatMap g := by
  induction l with
  | nil => rfl
  | cons x xs ih =>
    rw [List.flatMap_cons, List.flatMap_cons, h x (List.mem_cons_self x xs),
      ih fun a ha => h a (List.mem_cons_of_mem x ha)]

/-- C1: for every weighted sample whose rows, after dropping NaN-containing
rows, have minimum weight m > 0, the resampler output is the concatenation,
in original row order, of each Ks value repeated floor(weight / m) times,
and for uniform weights the output length equals the row count.  (That the
input [(1.0, w=2), (2.0, w=1)] yields exactly [1.0, 1.0, 2.0] is checked in
the witness.) -/
theorem weighted_to_unweighted_correct (rows : List Row)
    (hne : dropna rows ≠ []) (hm : 0 < minWeight (dropna rows)) :
    weighted_to_unweighted rows
      = .ok ((dropna rows).flatMap fun q =>
          List.replicate (⌊q.2 / minWeight (dropna rows)⌋).toNat q.1) ∧
    ((∀ q ∈ dropna rows, q.2 = minWeight (dropna rows)) →
      ((dropna rows).flatMap fun q =>
          List.replicate (⌊q.2 / minWeight (dropna rows)⌋).toNat q.1).length
        = (dropna rows).length) := by
  have hflat : resampleList (dropna rows) (minWeight (dropna rows))
      = (dropna rows).flatMap fun q =>
          List.replicate (⌊q.2 / minWeight (dropna rows)⌋).toNat q.1 := by
    apply flatMap_congr
    intro q hq
    have h1 : 0 ≤ q.2 / minWeight (dropna rows) :=
      div_nonneg (le_trans hm.le (minWeight_le hq)) hm.le
    rw [pyInt_of_nonneg h1]
  constructor
  · rw [weighted_to_unweighted_ok hne hm.ne', hflat]
  · intro huni
    rw [List.length_flatMap]
    have hone : ∀ q ∈ dropna rows,
        (List.length ∘ fun q : ℚ × ℚ =>
          List.replicate (⌊q.2 / minWeight (dropna rows)⌋).toNat q.1) q = 1 := by
      intro q hq
      simp only [Function.comp_apply, List.length_replicate]
      rw [huni q hq, div_self hm.ne', Int.floor_one, Int.toNat_one]
    rw [List.map_congr_left hone]
    simp

/-- Witness for C1: the spec scenario rows [(1, w=2), (2, w=1)] resample to
[1, 1, 2], and a uniform-weight sample resamples to one value per row. -/
theorem weighted_to_unweighted_correct_witness :
    weighted_to_unweighted exampleRows = .ok [1, 1, 2] ∧
    ((dropna uniformRows).flatMap fun q =>
        List.replicate (⌊q.2 / minWeight (dropna uniformRows)⌋).toNat q.1).length
      = (dropna uniformRows).length := by
  constructor
  · rw [(weighted_to_unweighted_correct exampleRows (by decide) (by decide)).1]
    have hm : minWeight (dropna exampleRows) = 1 := by decide
    have hd : dropna exampleRows = [(1, 2), (2, 1)] := by decide
    rw [hm, hd]
    simp [List.flatMap_cons, Int.floor_one]
  · exact (weighted_to_unweighted_correct uniformRows (by decide) (by decide)).2 (by decide)

/-- C8: a weighted sample that is empty after NaN-dropping, or whose minimum
weight is zero, makes the resampler raise instead of returning a sample. -/
theorem weighted_to_unweighted_error (rows : List Row)
    (h : dropna rows = [] ∨ minWeight (dropna rows) = 0) :
    ∃ e, weighted_to_unweighted rows = .error e := by
  unfold weighted_to_unweighted
  split
  · exact ⟨_, rfl⟩
  · next p ps heq =>
    rcases h with h | h
    · rw [heq] at h; cases h
    · rw [heq] at h
      rw [if_pos h]
      exact ⟨_, rfl⟩

/-- Witness for C8: an all-NaN frame and a zero-minimum-weight frame both
make the resampler raise. -/
theorem weighted_to_unweighted_error_witness :
    (dropna nanRows = [] ∨ minWeight (dropna nanRows) = 0) ∧
    (∃ e, weighted_to_unweighted nanRows = .error e) ∧
    (dropna zeroWRows = [] ∨ minWeight (dropna zeroWRows) = 0) ∧
    (∃ e, weighted_to_unweighted zeroWRows = .error e) :=
  ⟨by decide, weighted_to_unweighted_error nanRows (by decide),
   by decide, weighted_to_unweighted_error zeroWRows (by decide)⟩

/-- C7: under the data-model invariant that retained weights are positive
(expressed as a positive minimum weight), increasing one entry's weight
while the minimum weight and all other entries stay unchanged never
decreases the length of the resampled output. -/
theorem resample_length_mono (pre post : List Row) (k w w' : ℚ) (hww : w ≤ w')
    (hpos : 0 < minWeight (dropna (pre ++ ⟨some k, some w⟩ :: post)))
    (hmin : minWeight (dropna (pre ++ ⟨some k, some w'⟩ :: post))
          = minWeight (dropna (pre ++ ⟨some k, some w⟩ :: post))) :
    ∃ l l',
      weighted_to_unweighted (pre ++ ⟨some k, some w⟩ :: post) = .ok l ∧
      weighted_to_unweighted (pre ++ ⟨some k, some w'⟩ :: post) = .ok l' ∧
      l.length ≤ l'.length := by
  have hd1 : dropna (pre ++ ⟨some k, some w⟩ :: post)
      = dropna pre ++ (k, w) :: dropna post := by
    simp [dropna, List.filterMap_append]
  have hd2 : dropna (pre ++ ⟨some k, some w'⟩ :: post)
      = dropna pre ++ (k, w') :: dropna post := by
    simp [dropna, List.filterMap_append]
  have hne1 : dropna (pre ++ ⟨some k, some w⟩ :: post) ≠ [] := by
    rw [hd1]; simp
  have hne2 : dropna (pre ++ ⟨some k, some w'⟩ :: post) ≠ [] := by
    rw [hd2]; simp
  have hok1 := weighted_to_unweighted_ok hne1 hpos.ne'
  have hok2 := weighted_to_unweighted_ok hne2 (by rw [hmin]; exact hpos.ne')
  refine ⟨_, _, hok1, hok2, ?_⟩
  rw [hd1] at hpos
  rw [hd1, hd2] at hmin
  rw [hd1, hd2, hmin]
  set m := minWeight (dropna pre ++ (k, w) :: dropna post) with hmdef
  have hkw : m ≤ w := minWeight_le (by simp : (k, w) ∈ dropna pre ++ (k, w) :: dropna post)
  have h0 : 0 ≤ w / m := div_nonneg (le_trans hpos.le hkw) hpos.le
  have h0' : 0 ≤ w' / m := div_nonneg (le_trans (le_trans hpos.le hkw) hww) hpos.le
  have hrep : (pyInt (w / m)).toNat ≤ (pyInt (w' / m)).toNat := by
    rw [pyInt_of_nonneg h0, pyInt_of_nonneg h0']
    exact Int.toNat_le_toNat (Int.floor_le_floor (div_le_div_of_nonneg_right hww hpos.le))
  rw [resampleList, resampleList, List.flatMap_append, List.flatMap_append,
    List.flatMap_cons, List.flatMap_cons]
  simp only [List.length_append, List.length_replicate]
  omega

/-- Witness for C7: raising the second weight of [(1, w=1), (2, w=1)] to 3
keeps the minimum weight and lengthens the output. -/
theorem resample_length_mono_witness :
    ((1 : ℚ) ≤ 3) ∧
    (0 < minWeight (dropna (([⟨some 1, some 1⟩] : List Row) ++ ⟨some 2, some 1⟩ :: []))) ∧
    (minWeight (dropna (([⟨some 1, some 1⟩] : List Row) ++ ⟨some 2, some 3⟩ :: []))
      = minWeight (dropna (([⟨some 1, some 1⟩] : List Row) ++ ⟨some 2, some 1⟩ :: []))) ∧
    ∃ l l',
      weighted_to_unweighted (([⟨some 1, some 1⟩] : List Row) ++ ⟨some 2, some 1⟩ :: []) = .ok l ∧
      weighted_to_unweighted (([⟨some 1, some 1⟩] : List Row) ++ ⟨some 2, some 3⟩ :: []) = .ok l' ∧
      l.length ≤ l'.length :=
  ⟨by decide, by decide, by decide,
   resample_length_mono [⟨some 1, some 1⟩] [] 2 1 3 (by decide) (by decide) (by decide)⟩

/-- C2: the Ks-range filter used by both mixture fitters retains exactly the
values strictly between lo and hi (boundary-equal values are dropped), and
the log transform is applied only after this filtering, so the fitted vector
is the elementwise transform of exactly the strictly-interior values. -/
theorem truncate_strict_and_log_after (ln : ℚ → ℚ) (lo hi : ℚ) (X : List ℚ) :
    (∀ v : ℚ, v ∈ truncate_Ks lo hi X ↔ v ∈ X ∧ lo < v ∧ v < hi) ∧
    lo ∉ truncate_Ks lo hi X ∧ hi ∉ truncate_Ks lo hi X ∧
    fit_input ln lo hi true X
      = (X.filter fun v => decide (lo < v) && decide (v < hi)).map ln := by
  have hmem : ∀ v : ℚ, v ∈ truncate_Ks lo hi X ↔ v ∈ X ∧ lo < v ∧ v < hi := by
    intro v
    rw [truncate_Ks, List.mem_filter, List.mem_filter]
    simp only [decide_eq_true_eq]
    tauto
  refine ⟨hmem, ?_, ?_, ?_⟩
  · intro hcon
    exact lt_irrefl lo ((hmem lo).mp hcon).2.1
  · intro hcon
    exact lt_irrefl hi ((hmem hi).mp hcon).2.2
  · rw [fit_input, if_pos rfl, truncate_Ks, List.filter_filter]

/-! Lemmas about np_argmin. -/

lemma np_argmin_lt_length {l : List ℚ} (h : l ≠ []) : np_argmin l < l.length := by
  apply List.findIdx_lt_length_of_exists
  exact ⟨listMinD l, listMinD_mem h, by simp⟩

lemma np_argmin_getD {l : List ℚ} (h : l ≠ []) :
    l.getD (np_argmin l) 0 = listMinD l := by
  have hlt := np_argmin_lt_length h
  rw [List.getD_eq_getElem l 0 hlt]
  have := List.findIdx_getElem (w := hlt)
  simpa using this

lemma np_argmin_le {l : List ℚ} (h : l ≠ []) {j : ℕ} (hj : j < l.length) :
    l.getD (np_argmin l) 0 ≤ l.getD j 0 := by
  rw [np_argmin_getD h, List.getD_eq_getElem l 0 hj]
  exact listMinD_le (List.getElem_mem hj)

lemma np_argmin_first {l : List ℚ} (h : l ≠ []) {j : ℕ} (hj : j < np_argmin l) :
    l.getD (np_argmin l) 0 < l.getD j 0 := by
  have hlt := np_argmin_lt_length h
  have hjl : j < l.length := lt_trans hj hlt
  have hne : l[j] ≠ listMinD l := by
    have := List.not_of_lt_findIdx hj
    simpa using this
  rw [np_argmin_getD h, List.getD_eq_getElem l 0 hjl]
  exact lt_of_le_of_ne (listMinD_le (List.getElem_mem hjl)) (Ne.symm hne)

/-! Lemmas unfolding the two mixture entry points on successful input. -/

lemma gmm_models_length (fitG : ℕ → ℕ → List ℚ → MixtureModel) (X : List ℚ)
    (n : ℕ) : (gmm_models fitG X n).length = n := by
  simp [gmm_models]

lemma gmm_IC_length (aic bic : MixtureModel → List ℚ → ℚ) (metric : String)
    (models : List MixtureModel) (X : List ℚ) :
    (gmm_IC aic bic metric models X).length = models.length := by
  rw [gmm_IC]; split <;> simp

lemma getD_map_range' {α : Type} (f : ℕ → α) (s n i : ℕ) (h : i < n) (d : α) :
    ((List.range' s n).map f).getD i d = f (s + i) := by
  rw [List.getD_eq_getElem?_getD, List.getElem?_map, List.getElem?_range' s 1 h]
  simp

lemma mixture_model_gmm_ok {fitG : ℕ → ℕ → List ℚ → MixtureModel}
    {aic bic : MixtureModel → List ℚ → ℚ} {ln : ℚ → ℚ} {rows : List Row}
    {n : ℕ} {metric : String} {lo hi : ℚ} {log : Bool} {X0 : List ℚ}
    (hX : weighted_to_unweighted rows = .ok X0) (hn : 1 ≤ n) :
    mixture_model_gmm fitG aic bic ln rows n metric lo hi log
      = .ok (gmm_models fitG (fit_input ln lo hi log X0) n,
             gmm_IC aic bic metric (gmm_models fitG (fit_input ln lo hi log X0) n)
               (fit_input ln lo hi log X0),
             (gmm_models fitG (fit_input ln lo hi log X0) n).getD
               (np_argmin (gmm_IC aic bic metric
                 (gmm_models fitG (fit_input ln lo hi log X0) n)
                 (fit_input ln lo hi log X0))) default) := by
  have hICne : gmm_IC aic bic metric (gmm_models fitG (fit_input ln lo hi log X0) n)
      (fit_input ln lo hi log X0) ≠ [] := by
    apply List.ne_nil_of_length_pos
    rw [gmm_IC_length, gmm_models_length]
    omega
  unfold mixture_model_gmm
  rw [hX]
  show (if gmm_IC aic bic metric (gmm_models fitG (fit_input ln lo hi log X0) n)
      (fit_input ln lo hi log X0) = [] then _ else _) = _
  rw [if_neg hICne]

lemma mixture_model_bgmm_ok {fitB : ℕ → ℚ → ℕ → List ℚ → MixtureModel}
    {ln : ℚ → ℚ} {rows : List Row} {nlo nhi : ℕ} {lo hi gamma : ℚ}
    {max_iter : ℕ} {log : Bool} {X0 : List ℚ}
    (hX : weighted_to_unweighted rows = .ok X0) :
    mixture_model_bgmm fitB ln rows nlo nhi lo hi gamma max_iter log
      = .ok ((List.range' nlo (nhi + 1 - nlo)).map fun n =>
          fitB n gamma max_iter (fit_input ln lo hi log X0)) := by
  unfold mixture_model_bgmm
  rw [hX]
  rfl

/-- C3: for every component-count range with K_min ≤ K_max, the
Bayesian-Dirichlet strategy `mixture_model_bgmm` fits and returns exactly
one model per component count K in the inclusive range, K_max − K_min + 1
models in increasing-K order, with no selection among them. -/
theorem bgmm_fits_inclusive_range (fitB : ℕ → ℚ → ℕ → List ℚ → MixtureModel)
    (ln : ℚ → ℚ) (rows : List Row) (nlo nhi : ℕ) (lo hi gamma : ℚ)
    (max_iter : ℕ) (log : Bool) (X0 : List ℚ)
    (hX : weighted_to_unweighted rows = .ok X0) (hn : nlo ≤ nhi) :
    ∃ ms : List MixtureModel,
      mixture_model_bgmm fitB ln rows nlo nhi lo hi gamma max_iter log = .ok ms ∧
      ms.length = nhi - nlo + 1 ∧
      ∀ i, i < nhi - nlo + 1 →
        ms.getD i default = fitB (nlo + i) gamma max_iter (fit_input ln lo hi log X0) := by
  refine ⟨_, mixture_model_bgmm_ok hX, ?_, ?_⟩
  · rw [List.length_map, List.length_range']
    omega
  · intro i hi2
    exact getD_map_range' _ nlo (nhi + 1 - nlo) i (by omega) default

/-- Witness for C3: with the range [2, 4] the Bayesian strategy returns the
three models with component counts 2, 3 and 4, in that order. -/
theorem bgmm_fits_inclusive_range_witness :
    (weighted_to_unweighted oneRow = .ok [1]) ∧ (2 ≤ 4) ∧
    ∃ ms : List MixtureModel,
      mixture_model_bgmm fitFixB id oneRow 2 4 (1/10) 2 default_gamma
        default_max_iter false = .ok ms ∧
      ms.length = 4 - 2 + 1 ∧
      ∀ i, i < 4 - 2 + 1 →
        ms.getD i default
          = fitFixB (2 + i) default_gamma default_max_iter
              (fit_input id (1/10) 2 false [1]) :=
  ⟨by decide, by decide,
   bgmm_fits_inclusive_range fitFixB id oneRow 2 4 (1/10) 2 default_gamma
     default_max_iter false [1] (by decide) (by decide)⟩

/-- Companion fact for C3 (not a claim theorem): the legacy entry point
`mixture_model_bgmm_`, explicitly superseded per the spec design notes,
instead fits over the exclusive Python range with only K_max − K_min
models. -/
lemma bgmm_legacy_exclusive_range (fitB : ℕ → ℚ → ℕ → List ℚ → MixtureModel)
    (rows : List Row) (nlo nhi : ℕ) (lo hi gamma : ℚ) (max_iter : ℕ)
    (X0 : List ℚ) (hX : weighted_to_unweighted rows = .ok X0) :
    ∃ ms : List MixtureModel,
      mixture_model_bgmm_ fitB rows nlo nhi lo hi gamma max_iter = .ok ms ∧
      ms.length = nhi - nlo := by
  have h : mixture_model_bgmm_ fitB rows nlo nhi lo hi gamma max_iter
      = .ok ((List.range' nlo (nhi - nlo)).map fun n =>
          fitB n gamma max_iter (truncate_Ks lo hi X0)) := by
    unfold mixture_model_bgmm_
    rw [hX]
    rfl
  exact ⟨_, h, by rw [List.length_map, List.length_range']⟩

/-- C4: the plain-Gaussian strategy fits one model per component count in
[1, n] with iteration bound 100 and returns the full per-model
criterion-score list together with the selected best model, the one at the
first index achieving the minimum score in increasing-K order. -/
theorem gmm_selects_first_min (fitG : ℕ → ℕ → List ℚ → MixtureModel)
    (aic bic : MixtureModel → List ℚ → ℚ) (ln : ℚ → ℚ) (rows : List Row)
    (n : ℕ) (metric : String) (lo hi : ℚ) (log : Bool) (X0 : List ℚ)
    (hX : weighted_to_unweighted rows = .ok X0) (hn : 1 ≤ n) :
    ∃ (ms : List MixtureModel) (IC : List ℚ) (best : MixtureModel),
      mixture_model_gmm fitG aic bic ln rows n metric lo hi log
        = .ok (ms, IC, best) ∧
      ms.length = n ∧
      (∀ i, i < n → ms.getD i default = fitG (1 + i) 100 (fit_input ln lo hi log X0)) ∧
      IC = gmm_IC aic bic metric ms (fit_input ln lo hi log X0) ∧
      best = ms.getD (np_argmin IC) default ∧
      (∀ j, j < n → IC.getD (np_argmin IC) 0 ≤ IC.getD j 0) ∧
      (∀ j, j < np_argmin IC → IC.getD (np_argmin IC) 0 < IC.getD j 0) := by
  have hlen : (gmm_models fitG (fit_input ln lo hi log X0) n).length = n :=
    gmm_models_length fitG (fit_input ln lo hi log X0) n
  have hICl : (gmm_IC aic bic metric (gmm_models fitG (fit_input ln lo hi log X0) n)
      (fit_input ln lo hi log X0)).length = n := by
    rw [gmm_IC_length, hlen]
  have hICne : gmm_IC aic bic metric (gmm_models fitG (fit_input ln lo hi log X0) n)
      (fit_input ln lo hi log X0) ≠ [] :=
    List.ne_nil_of_length_pos (by omega)
  refine ⟨_, _, _, mixture_model_gmm_ok hX hn, hlen, ?_, rfl, rfl, ?_, ?_⟩
  · intro i hi2
    rw [gmm_models]
    exact getD_map_range' (fun k => fitG k 100 (fit_input ln lo hi log X0)) 1 n i hi2 default
  · intro j hj
    exact np_argmin_le hICne (by omega)
  · intro j hj
    exact np_argmin_first hICne hj

/-- Witness for C4: on the spec scenario scores [120.5, 98.2, 110.0] the
second model (K = 2) is selected, and the whole result triple evaluates
concretely. -/
theorem gmm_selects_first_min_witness :
    (weighted_to_unweighted oneRow = .ok [1]) ∧ (1 ≤ 3) ∧
    (∃ (ms : List MixtureModel) (IC : List ℚ) (best : MixtureModel),
      mixture_model_gmm fitFix aicFix bicFix id oneRow 3 "AIC" (1/10) 2 false
        = .ok (ms, IC, best) ∧
      ms.length = 3 ∧
      (∀ i, i < 3 → ms.getD i default = fitFix (1 + i) 100 (fit_input id (1/10) 2 false [1])) ∧
      IC = gmm_IC aicFix bicFix "AIC" ms (fit_input id (1/10) 2 false [1]) ∧
      best = ms.getD (np_argmin IC) default ∧
      (∀ j, j < 3 → IC.getD (np_argmin IC) 0 ≤ IC.getD j 0) ∧
      (∀ j, j < np_argmin IC → IC.getD (np_argmin IC) 0 < IC.getD j 0)) ∧
    mixture_model_gmm fitFix aicFix bicFix id oneRow 3 "AIC" (1/10) 2 false
      = .ok ([⟨1, [], [], []⟩, ⟨2, [], [], []⟩, ⟨3, [], [], []⟩],
             [241/2, 491/5, 110], ⟨2, [], [], []⟩) :=
  ⟨by decide, by decide,
   gmm_selects_first_min fitFix aicFix bicFix id oneRow 3 "AIC" (1/10) 2 false [1]
     (by decide) (by decide),
   by decide⟩

/-- Counterexample for C5: a fit producing a model whose weights sum to 0.6
and whose variances are negative is returned unmarked inside a successful
`.ok` result — no NumericDegeneracy error is signaled anywhere in the code. -/
theorem gmm_degenerate_returned_unmarked :
    NumericDegenerate badModel ∧
    mixture_model_gmm fitBadFix zeroScore zeroScore id oneRow 1 "AIC" (1/10) 2 false
      = .ok ([badModel], [0], badModel) :=
  ⟨by decide, by decide⟩

/-- C5 (amended): the mixture fitter performs no weight-sum or variance
validation: every fitted model, including one satisfying the spec
NumericDegeneracy condition, is a member of the successfully returned model
list, unmarked. -/
theorem gmm_returns_degenerate_models (fitG : ℕ → ℕ → List ℚ → MixtureModel)
    (aic bic : MixtureModel → List ℚ → ℚ) (ln : ℚ → ℚ) (rows : List Row)
    (n : ℕ) (metric : String) (lo hi : ℚ) (log : Bool) (X0 : List ℚ)
    (hX : weighted_to_unweighted rows = .ok X0) (hn : 1 ≤ n) (k : ℕ) (hk : k < n)
    (_hdeg : NumericDegenerate (fitG (1 + k) 100 (fit_input ln lo hi log X0))) :
    ∃ (ms : List MixtureModel) (IC : List ℚ) (best : MixtureModel),
      mixture_model_gmm fitG aic bic ln rows n metric lo hi log
        = .ok (ms, IC, best) ∧
      fitG (1 + k) 100 (fit_input ln lo hi log X0) ∈ ms := by
  refine ⟨_, _, _, mixture_model_gmm_ok hX hn, ?_⟩
  rw [gmm_models]
  apply List.mem_map_of_mem
  rw [List.mem_range']
  exact ⟨k, hk, by simp⟩

/-- Witness for C5: the degenerate-model fitter instance of the amended
statement. -/
theorem gmm_returns_degenerate_models_witness :
    (weighted_to_unweighted oneRow = .ok [1]) ∧ (1 ≤ 1) ∧ (0 < 1) ∧
    NumericDegenerate (fitBadFix (1 + 0) 100 (fit_input id (1/10) 2 false [1])) ∧
    (∃ (ms : List MixtureModel) (IC : List ℚ) (best : MixtureModel),
      mixture_model_gmm fitBadFix zeroScore zeroScore id oneRow 1 "AIC" (1/10) 2 false
        = .ok (ms, IC, best) ∧
      fitBadFix (1 + 0) 100 (fit_input id (1/10) 2 false [1]) ∈ ms) :=
  ⟨by decide, by decide, by decide, by decide,
   gmm_returns_degenerate_models fitBadFix zeroScore zeroScore id oneRow 1 "AIC"
     (1/10) 2 false [1] (by decide) (by decide) 0 (by decide) (by decide)⟩

/-- Counterexample for C6: the unsupported criterion tag AICc does not fail
with any error — the call succeeds, and the score list [9] shows the BIC
scorer was used (the AIC scorer would have produced 120.5). -/
theorem gmm_unknown_metric_no_error :
    mixture_model_gmm fitFix aicFix bicFix id oneRow 1 "AICc" (1/10) 2 false
      = .ok ([⟨1, [], [], []⟩], [9], ⟨1, [], [], []⟩) := by
  decide

/-- C6 (amended): for every criterion tag other than AIC, including
unsupported ones, model selection silently proceeds with BIC scores and
returns successfully; no ConfigurationError is raised. -/
theorem gmm_non_aic_uses_bic (fitG : ℕ → ℕ → List ℚ → MixtureModel)
    (aic bic : MixtureModel → List ℚ → ℚ) (ln : ℚ → ℚ) (rows : List Row)
    (n : ℕ) (metric : String) (lo hi : ℚ) (log : Bool) (X0 : List ℚ)
    (hX : weighted_to_unweighted rows = .ok X0) (hn : 1 ≤ n)
    (hm : metric ≠ "AIC") :
    ∃ (ms : List MixtureModel) (best : MixtureModel),
      mixture_model_gmm fitG aic bic ln rows n metric lo hi log
        = .ok (ms, ms.map fun m => bic m (fit_input ln lo hi log X0), best) := by
  have hIC : gmm_IC aic bic metric (gmm_models fitG (fit_input ln lo hi log X0) n)
      (fit_input ln lo hi log X0)
      = (gmm_models fitG (fit_input ln lo hi log X0) n).map
          fun m => bic m (fit_input ln lo hi log X0) := by
    rw [gmm_IC, if_neg hm]
  refine ⟨gmm_models fitG (fit_input ln lo hi log X0) n,
    (gmm_models fitG (fit_input ln lo hi log X0) n).getD
      (np_argmin ((gmm_models fitG (fit_input ln lo hi log X0) n).map
        fun m => bic m (fit_input ln lo hi log X0))) default, ?_⟩
  rw [mixture_model_gmm_ok hX hn, hIC]

/-- Witness for C6: the unsupported tag AICc silently selects by BIC. -/
theorem gmm_non_aic_uses_bic_witness :
    (weighted_to_unweighted oneRow = .ok [1]) ∧ (1 ≤ 1) ∧ ("AICc" ≠ "AIC") ∧
    (∃ (ms : List MixtureModel) (best : MixtureModel),
      mixture_model_gmm fitFix aicFix bicFix id oneRow 1 "AICc" (1/10) 2 false
        = .ok (ms, ms.map fun m => bicFix m (fit_input id (1/10) 2 false [1]), best)) :=
  ⟨by decide, by decide, by decide,
   gmm_non_aic_uses_bic fitFix aicFix bicFix id oneRow 1 "AICc" (1/10) 2 false [1]
     (by decide) (by decide) (by decide)⟩

/-! Lemmas for the kernel-density-estimation embedding. -/

lemma bind_ok {α β : Type} (a : α) (f : α → Except String β) :
    (Except.ok a >>= f : Except String β) = f a := rfl

lemma kernel_density_estimation_ok {g : List ℕ} {cv : List ℚ → ℚ → ℚ}
    {rows : List Row} {bandwidths : List ℚ} {X0 : List ℚ}
    (hX : weighted_to_unweighted rows = .ok X0)
    (hlen : 2000 ≤ (kde_full_domain X0).length) :
    kernel_density_estimation g cv rows bandwidths
      = .ok (bandwidths.map fun b => cv (sampleAux g (kde_full_domain X0) 2000) b) := by
  unfold kernel_density_estimation random_sample
  rw [hX]
  simp only [bind_ok]
  rw [if_neg (by omega : ¬ (kde_full_domain X0).length < 2000)]
  simp only [bind_ok]
  rfl

/-- C10: when the resampled data has fewer than 2000 values in the full
evaluation domain 0.1 < v <= 5, the KDE routine fails at the bandwidth
cross-validation step — `random.sample` of 2000 points from a smaller
population raises — instead of completing. -/
theorem kde_needs_2000_in_domain (g : List ℕ) (cv : List ℚ → ℚ → ℚ)
    (rows : List Row) (bandwidths : List ℚ) (X0 : List ℚ)
    (hX : weighted_to_unweighted rows = .ok X0)
    (hlt : (kde_full_domain X0).length < 2000) :
    kernel_density_estimation g cv rows bandwidths
      = .error "ValueError: sample larger than population or is negative" := by
  unfold kernel_density_estimation random_sample
  rw [hX]
  simp only [bind_ok]
  rw [if_pos hlt]
  rfl

/-- Witness for C10: a one-value distribution has 1 < 2000 in-domain values
and the KDE routine raises. -/
theorem kde_needs_2000_in_domain_witness :
    (weighted_to_unweighted oneRow = .ok [1]) ∧
    ((kde_full_domain [1]).length < 2000) ∧
    kernel_density_estimation [] zeroKdeScore oneRow default_bandwidths
      = .error "ValueError: sample larger than population or is negative" :=
  ⟨by decide, by decide,
   kde_needs_2000_in_domain [] zeroKdeScore oneRow default_bandwidths [1]
     (by decide) (by decide)⟩

/-! Concrete evaluation lemmas on the 2002-value fixture, used for C9. -/

lemma bigRows_resamples : weighted_to_unweighted bigRows = .ok bigX := by
  have hne : dropna bigRows ≠ [] := by decide
  have hm : (0:ℚ) < minWeight (dropna bigRows) := by decide
  rw [weighted_to_unweighted_ok hne hm.ne']
  have hmw : minWeight (dropna bigRows) = 1 := by decide
  have hd : dropna bigRows = [(1, 2001), (2, 1)] := by decide
  rw [hmw, hd]
  congr 1

lemma mem_bigX : ∀ a ∈ bigX, a = 1 ∨ a = 2 := by
  intro a ha
  rw [bigX, List.mem_append, List.mem_replicate] at ha
  rcases ha with ⟨_, h⟩ | h
  · exact Or.inl h
  · exact Or.inr (List.mem_singleton.mp h)

lemma kde_full_domain_bigX : kde_full_domain bigX = bigX := by
  have h1 : bigX.filter (fun v => decide ((1:ℚ)/10 < v)) = bigX := by
    apply List.filter_eq_self.mpr
    intro a ha
    rcases mem_bigX a ha with rfl | rfl <;> decide
  rw [kde_full_domain, h1]
  apply List.filter_eq_self.mpr
  intro a ha
  rcases mem_bigX a ha with rfl | rfl <;> decide

lemma bigX_length : bigX.length = 2002 := by
  rw [bigX, List.length_append, List.length_replicate]
  rfl

lemma sampleAux_succ (g : List ℕ) (pop : List ℚ) (k : ℕ) (h : pop.length ≠ 0) :
    sampleAux g pop (k + 1)
      = pop.getD (g.headD 0 % pop.length) 0 ::
          sampleAux g.tail (pop.eraseIdx (g.headD 0 % pop.length)) k := by
  rw [sampleAux]
  rw [if_neg h]

lemma bigX_getD_zero : bigX.getD 0 0 = 1 := by
  rw [bigX, show (2001:ℕ) = 2000 + 1 from rfl, List.replicate_succ, List.cons_append]
  rfl

lemma bigX_getD_last : bigX.getD 2001 0 = 2 := by
  rw [bigX, List.getD_eq_getElem?_getD,
    List.getElem?_append_right
      (by rw [List.length_replicate] : (List.replicate 2001 (1:ℚ)).length ≤ 2001)]
  rw [List.length_replicate]
  rfl

lemma sample_head_zero : (sampleAux [] bigX 2000).headD 0 = 1 := by
  rw [show (2000:ℕ) = 1999 + 1 from rfl,
    sampleAux_succ [] bigX 1999 (by rw [bigX_length]; omega)]
  rw [List.headD_cons]
  have hmod : ([] : List ℕ).headD 0 % bigX.length = 0 := by
    rw [bigX_length]
    rfl
  rw [hmod, bigX_getD_zero]

lemma sample_head_big : (sampleAux [2001] bigX 2000).headD 0 = 2 := by
  rw [show (2000:ℕ) = 1999 + 1 from rfl,
    sampleAux_succ [2001] bigX 1999 (by rw [bigX_length]; omega)]
  rw [List.headD_cons]
  have hmod : ([2001] : List ℕ).headD 0 % bigX.length = 2001 := by
    rw [bigX_length]
    rfl
  rw [hmod, bigX_getD_last]

/-- Counterexample for C9: two executions with all of the Python function
arguments identical — same data frame, same bandwidth list, same abstract
cross-validation scorer — but different ambient global `random` states
return different per-bandwidth score lists, so there is no seed parameter
through which the subsample could be reproduced: the function accepts
none. -/
theorem kde_subsample_depends_on_global_state :
    kernel_density_estimation [] cvHead bigRows [0]
      ≠ kernel_density_estimation [2001] cvHead bigRows [0] := by
  have hlen : 2000 ≤ (kde_full_domain bigX).length := by
    rw [kde_full_domain_bigX, bigX_length]; omega
  rw [kernel_density_estimation_ok bigRows_resamples hlen,
      kernel_density_estimation_ok bigRows_resamples hlen,
      kde_full_domain_bigX]
  intro hcon
  rw [Except.ok.injEq, List.map_cons, List.map_nil, List.map_cons, List.map_nil,
    List.cons.injEq] at hcon
  have h := hcon.1
  simp only [cvHead] at h
  rw [sample_head_zero, sample_head_big] at h
  exact absurd h (by decide)

/-- C9 (amended): `kernel_density_estimation` accepts no seed parameter; its
subsample is read from the ambient global random state, and the
per-bandwidth cross-validation scores are a deterministic function of that
global state together with the function inputs — two runs agree whenever the
global state at call time is the same, while different global states can
produce different scores on identical inputs. -/
theorem kde_scores_determined_by_state (g : List ℕ) (cv : List ℚ → ℚ → ℚ)
    (rows : List Row) (bandwidths : List ℚ) (X0 : List ℚ)
    (hX : weighted_to_unweighted rows = .ok X0)
    (hlen : 2000 ≤ (kde_full_domain X0).length) :
    kernel_density_estimation g cv rows bandwidths
      = .ok (bandwidths.map fun b => cv (sampleAux g (kde_full_domain X0) 2000) b) ∧
    (∀ g' : List ℕ, g' = g →
      kernel_density_estimation g' cv rows bandwidths
        = kernel_density_estimation g cv rows bandwidths) :=
  ⟨kernel_density_estimation_ok hX hlen, fun _ h => by rw [h]⟩

/-- Witness for C9: the 2002-value fixture instantiation. -/
theorem kde_scores_determined_by_state_witness :
    (weighted_to_unweighted bigRows = .ok bigX) ∧
    (2000 ≤ (kde_full_domain bigX).length) ∧
    (kernel_density_estimation [] cvHead bigRows [0]
      = .ok ([0].map fun b => cvHead (sampleAux [] (kde_full_domain bigX) 2000) b) ∧
    (∀ g' : List ℕ, g' = [] →
      kernel_density_estimation g' cvHead bigRows [0]
        = kernel_density_estimation [] cvHead bigRows [0])) :=
  ⟨bigRows_resamples,
   by rw [kde_full_domain_bigX, bigX_length]; omega,
   kde_scores_determined_by_state [] cvHead bigRows [0] bigX bigRows_resamples
     (by rw [kde_full_domain_bigX, bigX_length]; omega)⟩

end Wgd
